import Mathlib

/-!
Shallow embedding of the NodeScheduler repository's core logic: the job
scheduling decision engine (`scheduleJobs` in src/scheduler.mjs and
src/unnamed/part_000) and the delivery retry protocol
(`sendWhatsAppMessage`), plus the job-body error boundary (`jobTask`) and
the text-versus-document branch of `processData`.

Numbers flowing through the JS code come from `Number(...)` coercions of
environment variables and config fields, so a value is either a finite
number or `NaN` (or is `undefined` before coercion).  We model such values
with `JsVal`; the JS comparison operators return `false` whenever one side
is `NaN`, which `leJs` / `geJs` / `ltJs` reproduce.
-/

namespace NodeScheduler

/-- A JavaScript value in a numeric position: `undefined` (a missing config
field), `NaN` (result of `Number` on a non-numeric string), or a finite
number.  Times and thresholds in the code are whole numbers of minutes or
milliseconds, so the finite case carries an `Int`. -/
inductive JsVal where
  | undef : JsVal
  | nan : JsVal
  | num : Int → JsVal
deriving DecidableEq, Repr

/-- JS truthiness of a numeric position: `undefined`, `NaN` and `0` are
falsy, every other number is truthy (the `durationInMins &&` guard). -/
def truthy : JsVal → Bool
  | .undef => false
  | .nan => false
  | .num n => n != 0

/-- JS `x >= b` where `x` may be `NaN`/`undefined`: any comparison with a
non-number is `false`. -/
def geJs : JsVal → Int → Bool
  | .num n, b => b ≤ n
  | _, _ => false

/-- JS `x <= b` where `x` may be `NaN`/`undefined`. -/
def leJs : JsVal → Int → Bool
  | .num n, b => n ≤ b
  | _, _ => false

/-- JS `a < x` for a nonnegative attempt counter `a` against a possibly
non-numeric `MAX_RETRIES` (`retries < MAX_RETRIES`): `false` when
`MAX_RETRIES` is `NaN` or `undefined`. -/
def ltJs (a : Nat) : JsVal → Bool
  | .num n => (a : Int) < n
  | _ => false

/-- The finite number held by a `JsVal`, defaulting to 0 (only used under a
`truthy` guard, where the value is a nonzero number). -/
def getNum : JsVal → Int
  | .num n => n
  | _ => 0

/-! ## Scheduling decision engine (`scheduleJobs`) -/

/-- The three execution modes of the spec's §3, as activated by the
if/else chain in `scheduleJobs`.  `ScheduledOnce` keeps the raw hour and
minute values that are handed to `schedule.scheduleJob({ hour, minute })`. -/
inductive ExecutionMode where
  | Recurring : Int → ExecutionMode
  | ImmediateOnce : ExecutionMode
  | ScheduledOnce : JsVal → JsVal → ExecutionMode
deriving DecidableEq, Repr

/-- `new Date(year, month, date, hour, minute)` for today's date, in epoch
milliseconds: `dayStart` is midnight of `now`'s calendar date.  (JS rolls
out-of-range components over into adjacent days, which this linear formula
reproduces.) -/
def jobTimeMs (dayStart hour minute : Int) : Int :=
  dayStart + hour * 3600000 + minute * 60000

/-- `now - jobTime` in milliseconds.  If either component of the parsed
`jobTimes` is not a number, `new Date(...)` is an Invalid Date and the
subtraction yields `NaN`.  The code divides by `1000 * 60` to get
`delayMinutes`; we keep milliseconds and scale the threshold instead,
`delayMs / 60000 <= r  ↔  delayMs <= r * 60000`. -/
def delayMsOf (now dayStart : Int) : JsVal → JsVal → JsVal
  | .num h, .num m => .num (now - jobTimeMs dayStart h m)
  | _, _ => .nan

/-- The first guard of the chain: `durationInMins && durationInMins >=
ignoreFrequency`. -/
def recurrenceQualifies (ignoreFrequency : Int) (dur : JsVal) : Bool :=
  truthy dur && geJs dur ignoreFrequency

/-- The decision chain of `scheduleJobs` for one job (src/scheduler.mjs
lines 286-302): recurrence first, then the catch-up comparison
`delayMinutes <= runJobPassed`, else the daily `{ hour, minute }` timer.
`ignoreFrequency` = `JOB_IGNORE_FREQUENCY_MINUTES`, `runJobPassed` =
`RUN_JOB_PASSED_MINUTES`, both in minutes. -/
def scheduleDecision (ignoreFrequency runJobPassed now dayStart : Int)
    (dur hour minute : JsVal) : ExecutionMode :=
  if recurrenceQualifies ignoreFrequency dur then
    .Recurring (getNum dur)
  else if leJs (delayMsOf now dayStart hour minute) (runJobPassed * 60000) then
    .ImmediateOnce
  else
    .ScheduledOnce hour minute

/-- Firing instants of the cron rule `*/m * * * *` registered for a
`Recurring` job: with every other field a wildcard, the rule matches
exactly the instants whose minute-of-hour (`t % 60`, `t` in absolute
minutes) is divisible by the step `m`. -/
def cronFires (m t : Nat) : Bool :=
  (t % 60) % m == 0

/-! ## Delivery retry protocol (`sendWhatsAppMessage`) -/

/-- Observable trace of one delivery sequence: the attempt indices invoked
(in order), the backoff waits performed between attempts (ms, in order),
and the final outcome surfaced to the caller. -/
structure SendResult (ε : Type) where
  attempts : List Nat
  backoffs : List Nat
  outcome : Except ε Unit
deriving Repr

/-- Fuel for the recursion of `sendWhatsAppMessage`: the guard
`retries < MAX_RETRIES` bounds `retries` by `MAX_RETRIES` when the latter
is a number, and blocks recursion entirely otherwise. -/
def sendFuel : JsVal → Nat → Nat
  | .num n, retries => n.toNat + 1 - retries
  | _, _ => 0

/-- `sendWhatsAppMessage` (src/scheduler.mjs lines 192-220): try the
delivery action; on success return; on failure, if `retries < MAX_RETRIES`
wait `Math.pow(2, retries) * 1000` ms and recurse with `retries + 1`,
otherwise rethrow the error.  `act i` is the outcome the external gateway
gives attempt number `i` (the request itself is identical each time). -/
def sendWhatsAppMessage {ε : Type} (maxRetries : JsVal)
    (act : Nat → Except ε Unit) (retries : Nat) : SendResult ε :=
  match act retries with
  | .ok _ => ⟨[retries], [], .ok ()⟩
  | .error e =>
    if h : ltJs retries maxRetries = true then
      let rest := sendWhatsAppMessage maxRetries act (retries + 1)
      ⟨retries :: rest.attempts, 2 ^ retries * 1000 :: rest.backoffs, rest.outcome⟩
    else
      ⟨[retries], [], .error e⟩
termination_by sendFuel maxRetries retries
decreasing_by
  cases maxRetries with
  | undef => simp [ltJs] at h
  | nan => simp [ltJs] at h
  | num n => simp [ltJs] at h; simp [sendFuel]; omega

/-! ## Job body boundary (`jobTask`) and `processData` -/

/-- `jobTask` (src/scheduler.mjs lines 268-274): run the job body inside
`try { ... } catch (error) { logger.error(...) }` — every error is logged
and swallowed; the function itself always completes normally. -/
def jobTask {ε : Type} (body : Except ε Unit) : Except ε Unit :=
  match body with
  | .ok _ => .ok ()
  | .error _ => .ok ()

/-- A JS runtime error relevant to `processData`: dereferencing
`Object.keys(undefined)`. -/
inductive JsError where
  | typeError : JsError
deriving DecidableEq, Repr

/-- Which rendering path `processData` commits to. -/
inductive RenderPath where
  | text : RenderPath
  | document : RenderPath
deriving DecidableEq, Repr

/-- The text-versus-document decision of `processData` (src/scheduler.mjs
lines 241-260): `if (data.length < 4 && Object.keys(data[0]).length < 2)`.
A row is modelled by its list of column names (`Object.keys`).  JS `&&`
short-circuits, so `data[0]` is only dereferenced when `data.length < 4`;
on an empty array `data[0]` is `undefined` and `Object.keys(undefined)`
throws a `TypeError`, aborting the firing before any render or delivery. -/
def processData (data : List (List String)) : Except JsError RenderPath :=
  if data.length < 4 then
    match data with
    | [] => .error .typeError
    | row :: _ => if row.length < 2 then .ok .text else .ok .document
  else
    .ok .document

/-- An action that fails on attempts `0 .. k-1` and succeeds from attempt
`k` on (the external gateway recovers at attempt `k`). -/
def failsBeforeSucceeds {ε : Type} (k : Nat) (err : Nat → ε) : Nat → Except ε Unit :=
  fun i => if i < k then .error (err i) else .ok ()

/-! ## Helper lemmas -/

theorem sendWhatsAppMessage_ok {ε : Type} (maxRetries : JsVal) (act : Nat → Except ε Unit)
    (retries : Nat) (h : act retries = .ok ()) :
    sendWhatsAppMessage maxRetries act retries = ⟨[retries], [], .ok ()⟩ := by
  rw [sendWhatsAppMessage, h]

theorem sendWhatsAppMessage_retry {ε : Type} (maxRetries : JsVal) (act : Nat → Except ε Unit)
    (retries : Nat) (e : ε) (herr : act retries = .error e)
    (hlt : ltJs retries maxRetries = true) :
    sendWhatsAppMessage maxRetries act retries =
      ⟨retries :: (sendWhatsAppMessage maxRetries act (retries + 1)).attempts,
       2 ^ retries * 1000 :: (sendWhatsAppMessage maxRetries act (retries + 1)).backoffs,
       (sendWhatsAppMessage maxRetries act (retries + 1)).outcome⟩ := by
  rw [sendWhatsAppMessage, herr]
  simp [hlt]

theorem sendWhatsAppMessage_exhausted {ε : Type} (maxRetries : JsVal) (act : Nat → Except ε Unit)
    (retries : Nat) (e : ε) (herr : act retries = .error e)
    (hge : ltJs retries maxRetries = false) :
    sendWhatsAppMessage maxRetries act retries = ⟨[retries], [], .error e⟩ := by
  rw [sendWhatsAppMessage, herr]
  simp [hge]

/-- Trace of the retry protocol from attempt `k ≤ R` when every attempt
fails: attempts `k, k+1, …, R`, one backoff per failed non-final attempt,
and the last error as outcome. -/
theorem send_fail_trace {ε : Type} (R : Nat) (err : Nat → ε) (k : Nat) (hk : k ≤ R) :
    sendWhatsAppMessage (.num (R : Int)) (fun i => .error (err i)) k =
      ⟨List.range' k (R + 1 - k), (List.range' k (R - k)).map (fun i => 2 ^ i * 1000),
       .error (err R)⟩ := by
  obtain ⟨d, hd⟩ : ∃ d, R - k = d := ⟨R - k, rfl⟩
  induction d generalizing k with
  | zero =>
    have hkR : k = R := by omega
    subst hkR
    rw [sendWhatsAppMessage_exhausted _ _ _ (err k) rfl (by simp [ltJs])]
    simp [List.range']
  | succ d ih =>
    have hkR : k < R := by omega
    rw [sendWhatsAppMessage_retry _ _ _ (err k) rfl (by simp [ltJs]; exact_mod_cast hkR)]
    rw [ih (k + 1) (by omega) (by omega)]
    have h1 : R + 1 - k = ((R - (k + 1)) + 1) + 1 := by omega
    have h2 : R - k = (R - (k + 1)) + 1 := by omega
    have h3 : R + 1 - (k + 1) = (R - (k + 1)) + 1 := by omega
    simp [h1, h2, h3, List.range'_succ]

/-- Trace of the retry protocol from attempt `j` for an action that first
succeeds at attempt `k`, with `j ≤ k ≤ R`: attempts `j, …, k`, backoffs for
the failed attempts `j, …, k-1`, success as outcome. -/
theorem send_succeed_trace {ε : Type} (R k : Nat) (err : Nat → ε) (j : Nat)
    (hj : j ≤ k) (hk : k ≤ R) :
    sendWhatsAppMessage (.num (R : Int)) (failsBeforeSucceeds k err) j =
      ⟨List.range' j (k + 1 - j), (List.range' j (k - j)).map (fun i => 2 ^ i * 1000),
       .ok ()⟩ := by
  obtain ⟨d, hd⟩ : ∃ d, k - j = d := ⟨k - j, rfl⟩
  induction d generalizing j with
  | zero =>
    have hjk : j = k := by omega
    subst hjk
    rw [sendWhatsAppMessage_ok _ _ _ (by simp [failsBeforeSucceeds])]
    simp [List.range']
  | succ d ih =>
    have hjk : j < k := by omega
    rw [sendWhatsAppMessage_retry _ _ _ (err j) (by simp [failsBeforeSucceeds, hjk])
      (by simp [ltJs]; exact_mod_cast lt_of_lt_of_le hjk hk)]
    rw [ih (j + 1) (by omega) (by omega)]
    have h1 : k + 1 - j = ((k - (j + 1)) + 1) + 1 := by omega
    have h2 : k - j = (k - (j + 1)) + 1 := by omega
    have h3 : k + 1 - (j + 1) = (k - (j + 1)) + 1 := by omega
    simp [h1, h2, h3, List.range'_succ]

/-- Sum of the exponential backoff schedule: `Σ_{i<n} 2^i · 1000 ms`
equals `(2^n − 1)` seconds. -/
theorem backoff_sum (n : Nat) :
    ((List.range n).map (fun i => 2 ^ i * 1000)).sum = (2 ^ n - 1) * 1000 := by
  induction n with
  | zero => simp
  | succ n ih =>
    rw [List.range_succ, List.map_append, List.sum_append, ih]
    have h1 : 1 ≤ 2 ^ n := Nat.one_le_two_pow
    simp [pow_succ]
    omega

/-- When `m` divides 60, the cron rule `*/m * * * *` fires exactly at the
multiples of `m` (minute-of-hour congruence coincides with absolute
congruence). -/
theorem cronFires_iff_dvd (m : Nat) (hdvd : m ∣ 60) (t : Nat) :
    cronFires m t = (t % m == 0) := by
  unfold cronFires
  rw [Nat.mod_mod_of_dvd t hdvd]

/-! ## Claim theorems -/

/-- C1: for every job with a parsable `timeOfDay`, the decision chain picks
exactly one mode by first-match precedence: a present (hence, by the spec's
invariant, positive) recurrence interval `≥ ignoreThreshold` gives
`Recurring` regardless of the delay; otherwise `delayMinutes ≤
catchUpThreshold` gives `ImmediateOnce`; otherwise `ScheduledOnce(hour,
minute)`.  Delays are in milliseconds, so the minute comparison is scaled
by 60000. -/
theorem scheduleDecision_first_match (ignoreFrequency runJobPassed now dayStart : Int)
    (dur : JsVal) (hour minute : Int) :
    (∀ m : Int, 0 < m → ignoreFrequency ≤ m → dur = .num m →
      scheduleDecision ignoreFrequency runJobPassed now dayStart dur (.num hour) (.num minute)
        = .Recurring m)
    ∧ (recurrenceQualifies ignoreFrequency dur = false →
      now - jobTimeMs dayStart hour minute ≤ runJobPassed * 60000 →
      scheduleDecision ignoreFrequency runJobPassed now dayStart dur (.num hour) (.num minute)
        = .ImmediateOnce)
    ∧ (recurrenceQualifies ignoreFrequency dur = false →
      runJobPassed * 60000 < now - jobTimeMs dayStart hour minute →
      scheduleDecision ignoreFrequency runJobPassed now dayStart dur (.num hour) (.num minute)
        = .ScheduledOnce (.num hour) (.num minute)) := by
  refine ⟨?_, ?_, ?_⟩
  · rintro m hm hge rfl
    have hq : recurrenceQualifies ignoreFrequency (.num m) = true := by
      simp [recurrenceQualifies, truthy, geJs, hm.ne', hge]
    simp [scheduleDecision, hq, getNum]
  · intro hrec hle
    simp [scheduleDecision, hrec, delayMsOf, leJs, hle]
  · intro hrec hgt
    simp [scheduleDecision, hrec, delayMsOf, leJs]
    omega

/-- Witness for C1 at a concrete input: `ignoreThreshold = 30`,
interval 60, timeOfDay 09:00 → `Recurring 60`. -/
theorem scheduleDecision_first_match_witness :
    scheduleDecision 30 15 0 0 (.num 60) (.num 9) (.num 0) = .Recurring 60 :=
  (scheduleDecision_first_match 30 15 0 0 (.num 60) 9 0).1 60 (by norm_num) (by norm_num) rfl

/-- C6: a job without qualifying recurrence whose time-of-day is still in
the future today (negative delay) is classified `ImmediateOnce`, for any
nonnegative catch-up threshold: a negative delay always satisfies
`delayMinutes ≤ catchUpThreshold`. -/
theorem scheduleDecision_future_time_immediate
    (ignoreFrequency runJobPassed now dayStart : Int) (dur : JsVal) (hour minute : Int)
    (hrec : recurrenceQualifies ignoreFrequency dur = false)
    (hthr : 0 ≤ runJobPassed)
    (hfut : now < jobTimeMs dayStart hour minute) :
    scheduleDecision ignoreFrequency runJobPassed now dayStart dur (.num hour) (.num minute)
      = .ImmediateOnce := by
  simp [scheduleDecision, hrec, delayMsOf, leJs]
  nlinarith

/-- Witness for C6: `catchUpThreshold = 15`, `now` = 09:00, timeOfDay
10:00 (in one hour) → `ImmediateOnce`. -/
theorem scheduleDecision_future_time_immediate_witness :
    scheduleDecision 30 15 (9 * 3600000) 0 .undef (.num 10) (.num 0) = .ImmediateOnce :=
  scheduleDecision_future_time_immediate 30 15 (9 * 3600000) 0 .undef 10 0
    (by rfl) (by norm_num) (by norm_num [jobTimeMs])

/-- C5 counterexample, both malformed shapes of the claim: a job whose
`timeOfDay` is non-numeric (`jobTimes = "ab:cd"`, both components `NaN`)
but whose `durationInMins = 60` qualifies against `ignoreThreshold = 30`
is still activated — as `Recurring 60`; and a job whose `timeOfDay` is
out of range (`jobTimes = "25:00"`, hour 25) parses numerically, rolls the
date to tomorrow 01:00, gets a negative delay, and is run immediately
(at `now` = 09:00 with `catchUpThreshold = 15`) — contradicting both "no
timer registered" and "no immediate run". -/
theorem scheduleDecision_malformed_time_still_activated :
    scheduleDecision 30 15 0 0 (.num 60) .nan .nan = .Recurring 60
    ∧ scheduleDecision 30 15 (9 * 3600000) 0 .undef (.num 25) (.num 0) = .ImmediateOnce := by
  exact ⟨by decide, by decide⟩

/-- C5 amended: the code never validates `timeOfDay`, and classification
never fails fast or throws, so other jobs are always classified.  A job
with qualifying recurrence is activated as `Recurring` regardless of its
`timeOfDay`.  Otherwise: a non-numeric component parses to `NaN` and the
`NaN` delay fails the catch-up comparison, so a `ScheduledOnce` timer is
registered carrying the non-numeric components (no immediate run); an
out-of-range numeric component parses numerically and is rolled over by
the `Date` constructor — a time rolling past midnight (e.g. `25:00`) lies
in the future for the whole of today, its negative delay passes the
catch-up comparison, and the job runs immediately; any other numeric time
whose delay exceeds the threshold is registered as `ScheduledOnce`
carrying the raw (possibly out-of-range) components. -/
theorem scheduleDecision_malformed_time
    (ignoreFrequency runJobPassed now dayStart : Int) (dur hour minute : JsVal) :
    (recurrenceQualifies ignoreFrequency dur = true →
      scheduleDecision ignoreFrequency runJobPassed now dayStart dur hour minute
        = .Recurring (getNum dur))
    ∧ (recurrenceQualifies ignoreFrequency dur = false →
      (hour = .nan ∨ minute = .nan ∨ hour = .undef ∨ minute = .undef) →
      scheduleDecision ignoreFrequency runJobPassed now dayStart dur hour minute
        = .ScheduledOnce hour minute)
    ∧ (∀ h m : Int, recurrenceQualifies ignoreFrequency dur = false →
      24 * 60 ≤ h * 60 + m → dayStart ≤ now → now < dayStart + 24 * 3600000 →
      0 ≤ runJobPassed →
      scheduleDecision ignoreFrequency runJobPassed now dayStart dur (.num h) (.num m)
        = .ImmediateOnce)
    ∧ (∀ h m : Int, recurrenceQualifies ignoreFrequency dur = false →
      runJobPassed * 60000 < now - jobTimeMs dayStart h m →
      scheduleDecision ignoreFrequency runJobPassed now dayStart dur (.num h) (.num m)
        = .ScheduledOnce (.num h) (.num m)) := by
  refine ⟨?_, ?_, ?_, ?_⟩
  · intro hq
    simp [scheduleDecision, hq]
  · intro hrec hmal
    have hdelay : delayMsOf now dayStart hour minute = .nan := by
      rcases hmal with h | h | h | h
      · subst h; cases minute <;> rfl
      · subst h; cases hour <;> rfl
      · subst h; cases minute <;> rfl
      · subst h; cases hour <;> rfl
    simp [scheduleDecision, hrec, hdelay, leJs]
  · intro h m hrec hroll hday hday24 hthr
    have hbound : 0 ≤ runJobPassed * 60000 := by positivity
    simp [scheduleDecision, hrec, delayMsOf, leJs, jobTimeMs]
    linarith
  · intro h m hrec hgt
    simp [scheduleDecision, hrec, delayMsOf, leJs]
    omega

/-- Witness for the amended C5: out-of-range `timeOfDay` 24:30 at
`now` = 10:00 rolls past midnight and the job runs immediately. -/
theorem scheduleDecision_malformed_time_witness :
    scheduleDecision 30 15 (10 * 3600000) 0 .undef (.num 24) (.num 30) = .ImmediateOnce :=
  (scheduleDecision_malformed_time 30 15 (10 * 3600000) 0 .undef (.num 24) (.num 30)).2.2.1
    24 30 rfl (by norm_num) (by norm_num) (by norm_num) (by norm_num)

/-- C7 counterexample: the claim says `Recurring(m)` fires every `m`
minutes for every positive `m`, but the registered cron rule
`*/45 * * * *` fires (within the first two hours) at absolute minutes
0, 45, 60, 105, 120 — the firings at 45 and 60 are successive yet only 15
minutes apart. -/
theorem cron_45_not_fixed_interval :
    ((List.range 121).filter (fun t => cronFires 45 t)) = [0, 45, 60, 105, 120]
    ∧ 60 - 45 ≠ 45 := by
  refine ⟨by decide, by decide⟩

/-- C7 amended: `Recurring(m)` registers the cron rule `*/m * * * *`,
which fires at exactly the instants whose minute-of-hour is divisible by
`m`.  Successive firings are exactly `m` minutes apart precisely when `m`
divides 60; for such `m`, after any firing at `t` the next firing is at
`t + m` and no firing happens strictly in between. -/
theorem cronFires_fixed_period_of_dvd (m : Nat) (_hm : 0 < m) (hdvd : m ∣ 60) (t : Nat)
    (ht : cronFires m t = true) :
    cronFires m (t + m) = true ∧ ∀ s : Nat, t < s → s < t + m → cronFires m s = false := by
  rw [cronFires_iff_dvd m hdvd] at ht
  have ht0 : t % m = 0 := by simpa using ht
  constructor
  · rw [cronFires_iff_dvd m hdvd]
    simp [Nat.add_mod_right, ht0]
  · intro s hst hstm
    rw [cronFires_iff_dvd m hdvd]
    have hs : s % m = s - t := by
      conv_lhs => rw [show s = t + (s - t) by omega]
      rw [Nat.add_mod, ht0]
      simp [Nat.mod_eq_of_lt (show s - t < m by omega)]
    simp [hs]
    omega

/-- Witness for the amended C7: `m = 15` divides 60; after the firing at
minute 30 the next firing is at minute 45. -/
theorem cronFires_fixed_period_of_dvd_witness : cronFires 15 45 = true :=
  (cronFires_fixed_period_of_dvd 15 (by norm_num) (by norm_num) 30 (by decide)).1

/-- C2: with `MAX_RETRIES = R ≥ 0`, an action that fails on every attempt
is invoked exactly `R + 1` times (attempts `0 … R`), and the failure
surfaced to the caller is the error of the final attempt — it is
propagated only after the last attempt, never before (intermediate
failures appear only as backoff waits in the trace, not in the outcome). -/
theorem sendWhatsAppMessage_always_fail (R : Nat) {ε : Type} (err : Nat → ε) :
    sendWhatsAppMessage (.num (R : Int)) (fun i => .error (err i)) 0 =
      ⟨List.range (R + 1), (List.range R).map (fun i => 2 ^ i * 1000), .error (err R)⟩ := by
  rw [send_fail_trace R err 0 (Nat.zero_le R)]
  simp [List.range_eq_range']

/-- C3: an action that fails on attempts `0 … k-1` and succeeds on attempt
`k ≤ R` is invoked exactly `k + 1` times; the protocol returns success on
the first succeeding attempt and performs no further attempts or waits. -/
theorem sendWhatsAppMessage_success_stops (R k : Nat) {ε : Type} (err : Nat → ε)
    (hk : k ≤ R) :
    sendWhatsAppMessage (.num (R : Int)) (failsBeforeSucceeds k err) 0 =
      ⟨List.range (k + 1), (List.range k).map (fun i => 2 ^ i * 1000), .ok ()⟩ := by
  rw [send_succeed_trace R k err 0 (Nat.zero_le k) hk]
  simp [List.range_eq_range']

/-- Witness for C3: `R = 3`, success at attempt `k = 2` → attempts 0,1,2,
backoffs 1s and 2s, success. -/
theorem sendWhatsAppMessage_success_stops_witness :
    sendWhatsAppMessage (.num (3 : Int)) (failsBeforeSucceeds 2 (fun _ => "fail")) 0 =
      ⟨[0, 1, 2], [1000, 2000], .ok ()⟩ := by
  have h := sendWhatsAppMessage_success_stops 3 2 (fun _ => "fail") (by norm_num)
  rw [show ((3 : Nat) : Int) = (3 : Int) by norm_num] at h
  rw [h]
  rfl

/-- C4: the backoff before retry `i` (0-indexed over failed attempts) is
`Math.pow(2, i) * 1000` ms, i.e. `2^i` seconds; an exhausted sequence with
`MAX_RETRIES = R` accumulates `Σ_{i<R} 2^i · 1000 ms = (2^R − 1)` seconds
of backoff (`R = 3`: 1000 + 2000 + 4000 = 7000 ms over 4 attempts). -/
theorem sendWhatsAppMessage_backoff_schedule (R : Nat) {ε : Type} (err : Nat → ε) :
    (sendWhatsAppMessage (.num (R : Int)) (fun i => .error (err i)) 0).backoffs
        = (List.range R).map (fun i => 2 ^ i * 1000)
    ∧ ((sendWhatsAppMessage (.num (R : Int)) (fun i => .error (err i)) 0).backoffs).sum
        = (2 ^ R - 1) * 1000
    ∧ (sendWhatsAppMessage (.num (R : Int)) (fun i => .error (err i)) 0).attempts.length
        = R + 1 := by
  rw [send_fail_trace R err 0 (Nat.zero_le R)]
  refine ⟨by simp [List.range_eq_range'], ?_, by simp⟩
  simpa [List.range_eq_range'] using backoff_sum R

/-- C10: when `BACWS_RETRY_COUNT` is absent or non-numeric,
`MAX_RETRIES = Number(undefined) = NaN`, the guard `retries < MAX_RETRIES`
is false for every attempt count, so a failing delivery performs exactly
one attempt, waits for no backoff, and propagates the failure at once. -/
theorem sendWhatsAppMessage_nan_single_attempt {ε : Type} (act : Nat → Except ε Unit)
    (e : ε) (h : act 0 = .error e) :
    sendWhatsAppMessage .nan act 0 = ⟨[0], [], .error e⟩ :=
  sendWhatsAppMessage_exhausted .nan act 0 e h rfl

/-- Witness for C10: a concrete always-failing action under `NaN`
`MAX_RETRIES`: one attempt, no backoff, immediate error. -/
theorem sendWhatsAppMessage_nan_single_attempt_witness :
    sendWhatsAppMessage .nan (fun _ => (.error "boom" : Except String Unit)) 0
      = ⟨[0], [], .error "boom"⟩ :=
  sendWhatsAppMessage_nan_single_attempt (fun _ => .error "boom") "boom" rfl

/-- C8: `jobTask` wraps the whole job body in a catch-all: every outcome
of one firing — success or any error (fetch, auth, render, upload,
exhausted delivery retries) — is swallowed, so running any list of job
bodies completes every one of them normally and no error reaches the
scheduler's control flow. -/
theorem jobTask_swallows_errors {ε : Type} (body : Except ε Unit)
    (bodies : List (Except ε Unit)) :
    jobTask body = .ok () ∧ bodies.map jobTask = bodies.map (fun _ => .ok ()) := by
  constructor
  · cases body <;> rfl
  · induction bodies with
    | nil => rfl
    | cons b bs ih =>
      simp only [List.map_cons, ih]
      cases b <;> rfl

/-- C9: the text-versus-document branch of `processData` dereferences
`data[0]` whenever `data.length < 4`, so an empty row sequence throws a
`TypeError` before any render or delivery; `processData` passes this
decision normally exactly when the row sequence is non-empty. -/
theorem processData_requires_nonempty :
    processData [] = .error .typeError
    ∧ ∀ data : List (List String), data ≠ [] →
        ∃ p : RenderPath, processData data = .ok p := by
  refine ⟨rfl, ?_⟩
  intro data hne
  match data with
  | row :: rest =>
    by_cases h4 : rest.length + 1 < 4
    · by_cases h2 : row.length < 2
      · exact ⟨.text, by simp [processData, h4, h2]⟩
      · exact ⟨.document, by simp [processData, h4, h2]⟩
    · exact ⟨.document, by simp [processData, h4]⟩

/-- Witness for C9: a one-row, one-column result renders as text and the
decision completes normally. -/
theorem processData_requires_nonempty_witness :
    ∃ p : RenderPath, processData [["count"]] = .ok p :=
  processData_requires_nonempty.2 [["count"]] (by simp)

end NodeScheduler
